import Mathlib

/-!
Verification of the crawl-and-index pipeline of the `mcp-global` knowledge-base
system, shallowly embedded from the Python sources:

* `servers/knowledge-manager/crawler.py` — strategy detection, sitemap
  resolution, recursive crawling, batch fetching;
* `servers/knowledge-manager/lancedb_wrapper.py` — the vector-store wrapper
  (`LanceDBManager`): embedding identity, document rows, delete;
* `servers/knowledge-manager/server.py` — the knowledge-base registry
  (create / list / remove handlers);
* `servers/knowledge-manager/mcp_generator.py` — the generated per-KB search
  server (which constructs a default `LanceDBManager` for searching).

Network I/O, the `crawl4ai` content extractor, the embedding model and the
`uuid` generator are external collaborators; they enter the embedding as
explicit oracle parameters.  A raised exception in a collaborator call is an
`Except.error` / `Option.none` value of the corresponding oracle.  All other
code is translated directly.
-/

namespace MCPGlobal

/-! ## Python string primitives

Structurally recursive models of the Python `str` operations the sources use
(`lower`, `strip`, `rstrip('/')`, `startswith`, `endswith`, `in`,
`split(sep)`, `split(':', 1)[1]`), working on the character list of a
`String` so that concrete instances reduce by `decide`. -/

/-- Model of Python `str.lower` (ASCII-faithful). -/
def toLowerL (l : List Char) : List Char := l.map Char.toLower

/-- Does `needle` occur as a contiguous substring of `hay`?  Model of the
Python `in` operator on strings. -/
def containsSubL (needle : List Char) : List Char → Bool
  | [] => needle.isEmpty
  | c :: t => needle.isPrefixOf (c :: t) || containsSubL needle t

/-- Model of Python `str.startswith`. -/
def startsWithL (p s : List Char) : Bool := p.isPrefixOf s

/-- Model of Python `str.endswith`. -/
def endsWithL (p s : List Char) : Bool := p.reverse.isPrefixOf s.reverse

/-- Model of Python `str.strip()` (strip leading and trailing whitespace). -/
def stripL (l : List Char) : List Char :=
  ((l.dropWhile Char.isWhitespace).reverse.dropWhile Char.isWhitespace).reverse

/-- Model of Python `str.rstrip('/')`. -/
def rstripSlashL (l : List Char) : List Char :=
  (l.reverse.dropWhile (· = '/')).reverse

/-- Model of Python `str.split(c)` for a one-character separator. -/
def splitOnCharL (c : Char) : List Char → List (List Char)
  | [] => [[]]
  | x :: xs =>
    match splitOnCharL c xs with
    | [] => if x = c then [[], []] else [[x]]
    | h :: t => if x = c then [] :: h :: t else (x :: h) :: t

/-- Everything after the first occurrence of `c`, or `none` when `c` does not
occur.  Model of Python `s.split(c, 1)[1]` (which raises `IndexError`, here
`none`, when the separator is absent). -/
def afterFirstCharL (c : Char) : List Char → Option (List Char)
  | [] => none
  | x :: xs => if x = c then some xs else afterFirstCharL c xs

/-- Split `hay` at the first occurrence of `needle`, returning the pieces
before and after it. -/
def splitFirstSubL (needle : List Char) : List Char → Option (List Char × List Char)
  | [] => if needle.isEmpty then some ([], []) else none
  | x :: xs =>
    if needle.isPrefixOf (x :: xs) then some ([], (x :: xs).drop needle.length)
    else (splitFirstSubL needle xs).map (fun p => (x :: p.1, p.2))

/-- String wrapper for `containsSubL`. -/
def strContains (hay needle : String) : Bool := containsSubL needle.data hay.data

/-- String wrapper for `startsWithL`. -/
def strStartsWith (s p : String) : Bool := startsWithL p.data s.data

/-- String wrapper for `endsWithL`. -/
def strEndsWith (s p : String) : Bool := endsWithL p.data s.data

/-- String wrapper for `toLowerL`. -/
def strLower (s : String) : String := ⟨toLowerL s.data⟩

/-- String wrapper for `stripL`. -/
def strStrip (s : String) : String := ⟨stripL s.data⟩

/-- Python `url.rstrip('/')` on a `String`. -/
def strRstripSlash (s : String) : String := ⟨rstripSlashL s.data⟩

/-- Python `s.split(c)` on a `String`. -/
def strSplitChar (s : String) (c : Char) : List String :=
  (splitOnCharL c s.data).map (fun l => ⟨l⟩)

/-- Python `s.split(c, 1)[1]` on a `String`; `""` in the impossible
no-separator case (the sources only call it on lines known to contain the
separator). -/
def strAfterFirst (s : String) (c : Char) : String :=
  match afterFirstCharL c s.data with
  | some r => ⟨r⟩
  | none => ""

/-! ## URL helpers (`crawler.py`)

`get_base_domain` models `urlparse` scheme+netloc extraction; `urljoinAbs`
models `urllib.parse.urljoin(base, path)` for the absolute-path second
arguments (`/sitemap.xml`, …, `/robots.txt`) that `check_sitemap` uses. -/

/-- Embeds `crawler.get_base_domain`: the `scheme://netloc` part of a URL
(`f"{parsed.scheme}://{parsed.netloc}"`). -/
def get_base_domain (url : String) : String :=
  match splitFirstSubL "://".data url.data with
  | some (scheme, rest) => ⟨scheme⟩ ++ "://" ++ ⟨rest.takeWhile (· ≠ '/')⟩
  | none => "://"

/-- Models `urllib.parse.urljoin(base, path)` for a `path` that starts with
`/`: the base's `scheme://netloc` (resp. `scheme:` when the base has no
`//`-netloc part) followed by the path. -/
def urljoinAbs (base path : String) : String :=
  match splitFirstSubL "://".data base.data with
  | some (scheme, rest) => ⟨scheme⟩ ++ "://" ++ ⟨rest.takeWhile (· ≠ '/')⟩ ++ path
  | none =>
    match afterFirstCharL ':' base.data with
    | some _ => ⟨(base.data.takeWhile (· ≠ ':'))⟩ ++ ":" ++ path
    | none => path

/-! ## Strategy detection (`crawler.detect_strategy`, `crawler.check_sitemap`)

The HTTP collaborator (`requests`) is an oracle: `head url` is the status
code of `requests.head(url, ...)` or `none` when the call raises a
`RequestException`; `get url` is status code and body text of
`requests.get(url, ...)` or `none` on an exception. -/

/-- Oracle for the `requests` collaborator used by `check_sitemap`. -/
structure Net where
  head : String → Option Nat
  get : String → Option (Nat × String)

/-- The fixed list of conventional sitemap paths probed by `check_sitemap`. -/
def commonSitemapPaths : List String :=
  ["/sitemap.xml", "/sitemap_index.xml", "/sitemap/sitemap.xml"]

/-- Embeds the normalization prefix of `detect_strategy`: prefix `https://`
when the seed has no `http://`/`https://` scheme, then `rstrip('/')`. -/
def canonicalizeSeed (url : String) : String :=
  let u := if strStartsWith url "http://" || strStartsWith url "https://"
           then url else "https://" ++ url
  strRstripSlash u

/-- Embeds `crawler.check_sitemap`: probe the conventional sitemap paths with
`requests.head`, accepting the first that answers 200; otherwise fetch
`/robots.txt`, scan its lines for a case-insensitive `sitemap:` directive and
accept the first directive URL that itself answers 200 to a `head` probe.
Every oracle `none` (a raised `RequestException`) is treated as not-found. -/
def check_sitemap (net : Net) (base_url : String) : Bool × String :=
  match commonSitemapPaths.findSome? (fun path =>
      let sitemap_url := urljoinAbs base_url path
      match net.head sitemap_url with
      | some 200 => some sitemap_url
      | _ => none) with
  | some u => (true, u)
  | none =>
    match net.get (urljoinAbs base_url "/robots.txt") with
    | some (200, body) =>
      match (strSplitChar body '\n').findSome? (fun line =>
          if strStartsWith (strLower line) "sitemap:" then
            let sitemap_url := strStrip (strAfterFirst line ':')
            match net.head sitemap_url with
            | some 200 => some sitemap_url
            | _ => none
          else none) with
      | some u => (true, u)
      | none => (false, "")
    | _ => (false, "")

/-- Embeds `crawler.detect_strategy`: normalize the seed, return
`("sitemap", sitemap_url)` when `check_sitemap` finds one, otherwise
`("recursive", canonical_seed)`. -/
def detect_strategy (net : Net) (url : String) : String × String :=
  let u := canonicalizeSeed url
  match check_sitemap net u with
  | (true, sitemap_url) => ("sitemap", sitemap_url)
  | (false, _) => ("recursive", u)

/-! ## Page fetching (`crawl4ai` collaborator)

`crawler.arun(url, config)` yields a result with a `success` flag, a
`markdown` rendering, a `metadata['title']` entry (possibly absent) and the
page's internal links (each a dict whose `href` may be missing — modelled as
`""`, which Python's truthiness test skips exactly like `None`).  A raised
exception is `Except.error ()`. -/

/-- Result object of one `crawler.arun` call. -/
structure CrawlResult where
  success : Bool
  markdown : String
  title : Option String
  internalLinks : List String
deriving Repr, DecidableEq

/-- Oracle for the `crawl4ai` fetch-and-extract collaborator; `Except.error`
models a raised exception. -/
def Fetch : Type := String → Except Unit CrawlResult

/-- A crawled page as built by `crawl_recursive` / `crawl_urls`:
`{'url': url, 'title': result.metadata.get('title', 'Untitled'),
'markdown': result.markdown}`. -/
structure CrawledPage where
  url : String
  title : String
  markdown : String
deriving Repr, DecidableEq

/-- The page dict built from a successful fetch of `url`. -/
def pageOfResult (url : String) (r : CrawlResult) : CrawledPage :=
  ⟨url, r.title.getD "Untitled", r.markdown⟩

/-! ## Recursive crawl (`crawler.crawl_recursive`)

The loop state is the FIFO frontier `to_visit` of `(url, depth)` pairs, the
`visited` set and the accepted `pages`.  The embedding carries each accepted
page's dequeue depth as a ghost second component; `crawl_recursive` projects
it away.  Termination: each iteration either accepts a page (`max_pages -
pages.length` shrinks) or shortens the frontier. -/

/-- One-pass embedding of the `while to_visit and len(pages) < max_pages`
loop of `crawl_recursive`.  Pages are paired with the depth at which their
URL was dequeued (ghost data used only by the invariants). -/
def crawlRecursiveAux (fetch : Fetch) (base_domain : String)
    (max_pages max_depth : Nat) (to_visit : List (String × Nat))
    (visited : List String) (pages : List (CrawledPage × Nat)) :
    List (CrawledPage × Nat) :=
  match to_visit with
  | [] => pages
  | (url, depth) :: rest =>
    if pages.length < max_pages then
      if url ∈ visited || max_depth < depth then
        crawlRecursiveAux fetch base_domain max_pages max_depth rest visited pages
      else
        match fetch url with
        | .error _ =>
          crawlRecursiveAux fetch base_domain max_pages max_depth rest
            (url :: visited) pages
        | .ok r =>
          if r.success && r.markdown ≠ "" then
            let new_links :=
              if depth < max_depth then
                (r.internalLinks.filter
                  (fun l => l ≠ "" && strStartsWith l base_domain)).map
                  (fun l => (l, depth + 1))
              else []
            crawlRecursiveAux fetch base_domain max_pages max_depth
              (rest ++ new_links) (url :: visited)
              (pages ++ [(pageOfResult url r, depth)])
          else
            crawlRecursiveAux fetch base_domain max_pages max_depth rest
              (url :: visited) pages
    else pages
  termination_by (max_pages - pages.length, to_visit.length)
  decreasing_by
    all_goals first
      | exact Prod.Lex.left _ _ (by simp_all; omega)
      | exact Prod.Lex.right _ (by simp)

/-- Embeds `crawler.crawl_recursive(start_url, max_pages, max_depth=3)`. -/
def crawl_recursive (fetch : Fetch) (start_url : String)
    (max_pages : Nat) (max_depth : Nat := 3) : List CrawledPage :=
  (crawlRecursiveAux fetch (get_base_domain start_url) max_pages max_depth
    [(start_url, 0)] [] []).map Prod.fst

/-! ## Batch fetching (`crawler.crawl_urls`)

URLs are processed in batches of `batch_size = 10` (`urls[i:i+batch_size]`),
sequentially across batches.  Within a batch all fetches run under
`asyncio.gather(..., return_exceptions=True)`, so one URL's exception becomes
a value and the results are zipped back to the batch in input order. -/

/-- The batch partition `urls[i:i+10]` for `i = 0, 10, 20, …`. -/
def chunksTen : List String → List (List String)
  | [] => []
  | x :: xs => ((x :: xs).take 10) :: chunksTen ((x :: xs).drop 10)
  termination_by l => l.length
  decreasing_by simp; omega

/-- What one URL of a batch contributes: `none` when its fetch raised
(isolated by `return_exceptions=True`) or when `success`/`markdown` fails the
acceptance test, otherwise the page dict. -/
def batchPageOf (fetch : Fetch) (url : String) : Option CrawledPage :=
  match fetch url with
  | .error _ => none
  | .ok r => if r.success && r.markdown ≠ "" then some (pageOfResult url r) else none

/-- Processing of one gathered batch: zip the results back to the batch's
URLs in input order, skipping exceptions and failed fetches. -/
def processBatch (fetch : Fetch) (batch : List String) : List CrawledPage :=
  batch.filterMap (batchPageOf fetch)

/-- Embeds `crawler.crawl_urls`: fold the batches in order, appending each
batch's accepted pages. -/
def crawl_urls (fetch : Fetch) (urls : List String) : List CrawledPage :=
  (chunksTen urls).foldl (fun pages batch => pages ++ processBatch fetch batch) []

/-! ## Sitemap resolution (`crawler.extract_sitemap_urls`)

The sitemap fetch collaborator (`requests.get` + the `<loc>` regex) is the
oracle `fetchLocs : String → Option (List String)`; `none` models the
`except` path, which logs and returns `[]`.  The Python recursion has no
cycle guard and is therefore partial; the embedding adds explicit fuel, with
result `none` meaning the real function has not terminated within that
recursion depth — divergence is `∀ fuel, result = none`. -/

/-- Is this `<loc>` entry a nested sitemap?  Embeds
`'sitemap' in url.lower() and url.endswith('.xml')`. -/
def isNestedSitemap (url : String) : Bool :=
  strContains (strLower url) "sitemap" && strEndsWith url ".xml"

/-- Fuelled embedding of `crawler.extract_sitemap_urls`.  `none` = the
unguarded recursion exceeds the given depth (the Python function diverges on
cyclic sitemap graphs); `some urls` = the flattened page-URL list. -/
def extract_sitemap_urls (fetchLocs : String → Option (List String)) :
    Nat → String → Option (List String)
  | 0, _ => none
  | fuel + 1, sitemap_url =>
    match fetchLocs sitemap_url with
    | none => some []
    | some locs =>
      locs.foldr (fun url acc =>
        match acc with
        | none => none
        | some tail =>
          if isNestedSitemap url then
            match extract_sitemap_urls fetchLocs fuel url with
            | none => none
            | some sub => some (sub ++ tail)
          else some (url :: tail)) (some [])

/-! ## Top-level crawl (`crawler.crawl_website`, `crawler.WebsiteCrawler`) -/

/-- Embeds `crawler.crawl_from_sitemap`: resolve the sitemap, truncate to
`max_pages`, batch-fetch.  `none` propagates a diverging sitemap
resolution. -/
def crawl_from_sitemap (fetchLocs : String → Option (List String))
    (fetch : Fetch) (fuel : Nat) (sitemap_url : String) (max_pages : Nat) :
    Option (List CrawledPage) :=
  match extract_sitemap_urls fetchLocs fuel sitemap_url with
  | none => none
  | some urls => some (crawl_urls fetch (urls.take max_pages))

/-- Embeds the module-level `crawler.crawl_website(url, max_pages=100)`:
detect the strategy, then either the sitemap path or
`crawl_recursive(discovered_url, max_pages)` — which leaves the recursive
depth limit at its default `max_depth = 3`. -/
def crawl_website (net : Net) (fetchLocs : String → Option (List String))
    (fetch : Fetch) (fuel : Nat) (url : String) (max_pages : Nat) :
    Option (List CrawledPage) :=
  let sd := detect_strategy net url
  if sd.1 = "sitemap" then
    crawl_from_sitemap fetchLocs fetch fuel sd.2 max_pages
  else
    some (crawl_recursive fetch sd.2 max_pages)

/-- The `WebsiteCrawler` class: its constructor stores `max_pages` and
`max_depth`. -/
structure WebsiteCrawler where
  max_pages : Nat := 100
  max_depth : Nat := 3
deriving Repr, DecidableEq

/-- A page dict in the class interface shape (`content` instead of
`markdown`). -/
structure ContentPage where
  url : String
  title : String
  content : String
deriving Repr, DecidableEq

/-- The key rename performed by `WebsiteCrawler.crawl_website`. -/
def convertPage (p : CrawledPage) : ContentPage := ⟨p.url, p.title, p.markdown⟩

/-- Embeds the method `WebsiteCrawler.crawl_website(self, url)`: it calls
`crawl_website(url, max_pages=self.max_pages)` — `self.max_depth` is not
forwarded — and renames `markdown` to `content`. -/
def WebsiteCrawler.crawl_website (c : WebsiteCrawler) (net : Net)
    (fetchLocs : String → Option (List String)) (fetch : Fetch) (fuel : Nat)
    (url : String) : Option (List ContentPage) :=
  (MCPGlobal.crawl_website net fetchLocs fetch fuel url c.max_pages).map
    (List.map convertPage)

/-! ## The vector-store wrapper (`lancedb_wrapper.LanceDBManager`)

The manager's constructor fixes the embedding identity for every later call
on that instance: `self.embedding_model` is either the OpenAI model name (a
string, when `use_openai_embeddings`) or the `SentenceTransformer` loaded
from the given model name.  The embedding collaborator itself is an oracle;
what the claims are about is which identity each call uses. -/

/-- Constructor state of a `LanceDBManager`
(`__init__(embedding_model, use_openai_embeddings, openai_api_key,
openai_model)`).  `local_model` is the name the `SentenceTransformer` was
loaded from (recoverable as `_model_name_or_path`). -/
structure LanceDBManager where
  use_openai_embeddings : Bool := false
  openai_model : String := "text-embedding-3-small"
  local_model : String := "all-MiniLM-L6-v2"
deriving Repr, DecidableEq

/-- The embedding identity a manager instance uses for every `encode`/
`embeddings.create` call: the OpenAI model name when
`use_openai_embeddings`, else the loaded local model's name. -/
def LanceDBManager.embeddingIdentity (m : LanceDBManager) : String :=
  if m.use_openai_embeddings then m.openai_model else m.local_model

/-- The identity with which `LanceDBManager.search` embeds a query
(lines 231–235 of `lancedb_wrapper.py`): `self.embedding_model` from the
instance's constructor.  The knowledge base's recorded identity is in scope
(on disk, second argument) but the code never reads it. -/
def searchQueryEmbeddingIdentity (m : LanceDBManager)
    (_recordedIdentity : String) : String :=
  m.embeddingIdentity

/-- The metadata record `LanceDBManager.init_kb` writes
(`embedding_model` = the instance's identity). -/
structure LancedbMetadata where
  embedding_model : String
  use_openai_embeddings : Bool
  version : String := "2.0"
deriving Repr, DecidableEq

/-- Embeds the metadata assembly in `init_kb` (lines 86–99). -/
def LanceDBManager.initKbMetadata (m : LanceDBManager) : LancedbMetadata :=
  { embedding_model := m.embeddingIdentity
    use_openai_embeddings := m.use_openai_embeddings }

/-- The manager constructed by the generated per-KB search server
(`mcp_generator.py`, `handleSearch`'s embedded Python: `LanceDBManager()`)
— all constructor defaults. -/
def generatedServerManager : LanceDBManager := {}

/-! ### Document rows (`LanceDBManager.add_documents`)

`add_documents` receives a list of Python dicts.  It reads only
`doc.get('content', '')` and `doc.get('metadata', {})`; every other key of
the dict — including the `id`, `title` and `url` keys the server assembles —
is ignored.  Each stored row gets a fresh `uuid.uuid4()` id (oracle `uuid`,
indexed by the number of rows built so far), the content, its embedding
(oracle `embed`), and the entries of the `metadata` dict spread as extra
columns. -/

/-- A document dict as passed to `add_documents`: its string-valued
top-level keys and its optional `metadata` sub-dict. -/
structure PyDoc where
  fields : List (String × String)
  metadata : Option (List (String × String)) := none
deriving Repr, DecidableEq

/-- A row of the LanceDB `documents` table: `{'id': doc_id, 'content':
content, 'vector': embedding, **metadata}`. -/
structure TableRow where
  id : String
  content : String
  vector : List Int
  extra : List (String × String)
deriving Repr, DecidableEq

/-- Embeds the row-building loop of `add_documents` (lines 122–151):
skip documents whose stripped content is empty, give each kept document a
fresh uuid, embed its content, and spread only the `metadata` dict. -/
def add_documents_rows (uuid : Nat → String) (embed : String → List Int) :
    List PyDoc → Nat → List TableRow
  | [], _ => []
  | doc :: docs, k =>
    let content := ((doc.fields.lookup "content").getD "")
    if strStrip content = "" then add_documents_rows uuid embed docs k
    else
      { id := uuid k, content := content, vector := embed content,
        extra := doc.metadata.getD [] } :: add_documents_rows uuid embed docs (k + 1)

/-- Embeds `LanceDBManager.delete_kb` over an abstract directory list:
`shutil.rmtree` when the path exists, a warning otherwise — `True` (success)
in both cases. -/
def delete_kb (dirs : List String) (kb_path : String) :
    List String × Bool :=
  if kb_path ∈ dirs then (dirs.filter (· ≠ kb_path), true)
  else (dirs, true)

/-! ## The registry server (`server.py`)

The registry-visible state is the set of directories under
`~/.mcp-global/knowledge-bases` together with each directory's top-level
`metadata.json`.  (`init_kb` also writes a `metadata.json`, but inside the
`kb_path/lancedb` subdirectory — `_handle_knowledge_list` reads only
`kb_dir/metadata.json`, so only the server's own step-5 write is
registry-visible.) -/

/-- The metadata record `_handle_knowledge_create` writes in step 5. -/
structure KBMetadata where
  created_at : String
  embedding_model : String
  use_openai_embeddings : Bool
  version : String
  documents : Nat
  source_url : String
  max_pages : Nat
deriving Repr, DecidableEq

/-- State of a knowledge-base directory's top-level `metadata.json`. -/
inductive MetaFile where
  | absent
  | corrupt
  | good (m : KBMetadata)
deriving Repr, DecidableEq

/-- The knowledge-bases directory: each entry is a subdirectory with the
state of its `metadata.json`. -/
structure KBState where
  dirs : List (String × MetaFile)
deriving Repr, DecidableEq

/-- Embeds the name validation of `_handle_knowledge_create`:
`kb_name.replace("-", "").replace("_", "").isalnum()`. -/
def isValidKBName (kb_name : String) : Bool :=
  let s := kb_name.data.filter (fun c => c ≠ '-' && c ≠ '_')
  !s.isEmpty && s.all Char.isAlphanum

/-- Outcome of `_handle_knowledge_create` (the returned `TextContent`,
abstracted to which message was produced). -/
inductive CreateOutcome where
  | invalidName
  | alreadyExists
  | noPages
  | initFailed
  | addFailed
  | success (documents : Nat)
deriving Repr, DecidableEq

/-- Embeds the document-assembly loop of `_handle_knowledge_create`
(step 4, lines 198–208): one dict per page with the id derived from the
knowledge-base name and the page ordinal, kept only when its content is
non-empty. -/
def assembleDocuments (kb_name : String) (pages : List ContentPage) :
    List PyDoc :=
  pages.enum.filterMap (fun ip =>
    if ip.2.content ≠ "" then
      some { fields := [("id", kb_name ++ "_page_" ++ toString ip.1),
                        ("content", ip.2.content),
                        ("title", ip.2.title),
                        ("url", ip.2.url)] }
    else none)

/-- Embeds `_handle_knowledge_create` (server.py lines 144–298) over the
registry state.  `pages` stands for the result of
`await crawler.crawl_website(url)`; `init_ok` / `add_ok` for the boolean
results of `init_kb` / `add_documents`; `created_at` for
`str(Path().absolute())`.  MCP-server generation and auto-registration
(step 6) only print warnings and touch the separate servers directory, so
they do not appear in the registry state.  Returns the new state, the
outcome, and whether `add_documents` was called. -/
def handle_knowledge_create (st : KBState) (kb_name url : String)
    (max_pages : Nat) (use_openai_embeddings : Bool)
    (embedding_model : String) (created_at : String)
    (pages : List ContentPage) (init_ok add_ok : Bool) :
    KBState × CreateOutcome × Bool :=
  if isValidKBName kb_name = false then (st, .invalidName, false)
  else if kb_name ∈ st.dirs.map Prod.fst then (st, .alreadyExists, false)
  else if pages = [] then (st, .noPages, false)
  else
    -- Step 2: kb_path.mkdir — the directory now exists, metadata absent.
    let st1 : KBState := ⟨st.dirs ++ [(kb_name, .absent)]⟩
    if init_ok = false then (st1, .initFailed, false)
    else
      let documents := assembleDocuments kb_name pages
      if documents ≠ [] ∧ add_ok = false then (st1, .addFailed, true)
      else
        let meta : KBMetadata :=
          { created_at := created_at, embedding_model := embedding_model,
            use_openai_embeddings := use_openai_embeddings, version := "2.0",
            documents := documents.length, source_url := url,
            max_pages := max_pages }
        let st2 : KBState :=
          ⟨st1.dirs.map (fun d => if d.1 = kb_name then (d.1, .good meta) else d)⟩
        (st2, .success documents.length, !documents.isEmpty)

/-- Embeds `_handle_knowledge_list` (lines 300–341): report exactly the
subdirectories whose own `metadata.json` exists and parses, skipping the
rest. -/
def handle_knowledge_list (st : KBState) : List (String × KBMetadata) :=
  st.dirs.filterMap (fun d =>
    match d.2 with
    | .good m => some (d.1, m)
    | _ => none)

/-- Outcome of `_handle_knowledge_remove`. -/
inductive RemoveOutcome where
  | errorNotFound
  | removed
deriving Repr, DecidableEq

/-- Embeds `_handle_knowledge_remove` (lines 362–400): when the knowledge
base directory does not exist the handler answers with the error message
`"❌ Knowledge base '...' not found"`; otherwise it removes the directory
and reports success. -/
def handle_knowledge_remove (st : KBState) (kb_name : String) :
    KBState × RemoveOutcome :=
  if st.dirs.any (fun d => d.1 = kb_name) then
    (⟨st.dirs.filter (fun d => d.1 ≠ kb_name)⟩, .removed)
  else (st, .errorNotFound)

/-! ## Concrete collaborators used by the theorems below -/

/-- A sitemap-fetch oracle whose sitemap references itself. -/
def cyclicSitemapFetch : String → Option (List String) := fun u =>
  if u = "https://x.com/sitemap.xml" then some ["https://x.com/sitemap.xml"]
  else some []

/-- A sitemap-fetch oracle with two sitemaps referencing each other. -/
def mutualSitemapFetch : String → Option (List String) := fun u =>
  if u = "https://m.com/sitemap-a.xml" then some ["https://m.com/sitemap-b.xml"]
  else if u = "https://m.com/sitemap-b.xml" then some ["https://m.com/sitemap-a.xml"]
  else some []

/-- A `requests` oracle on which every probe fails (all calls raise). -/
def failingNet : Net := { head := fun _ => none, get := fun _ => none }

/-- A small three-page site for exercising the recursive crawl: the root
links back to itself via a child, one child has empty markdown, and one
link leaves the domain. -/
def exCrawlFetch : Fetch := fun u =>
  if u = "https://a.com" then
    .ok ⟨true, "root md", some "Root",
      ["https://a.com/1", "https://a.com/2", "https://b.com/x"]⟩
  else if u = "https://a.com/1" then
    .ok ⟨true, "one md", none, ["https://a.com", "https://a.com/2"]⟩
  else if u = "https://a.com/2" then
    .ok ⟨true, "", some "Empty", []⟩
  else .error ()

/-- A `requests` oracle on which `https://example.com/sitemap.xml` answers
200 to a `head` probe and everything else raises. -/
def sitemapNet : Net :=
  { head := fun u => if u = "https://example.com/sitemap.xml" then some 200 else none
    get := fun _ => none }

/-- The single crawled page used when exercising document assembly. -/
def onePage : List ContentPage := [⟨"https://e.com/a", "Title A", "hello world"⟩]

/-! ## Theorems -/

/-- Claim C1 (code bug): the spec requires query-time embedding identity to
be loaded from the knowledge base's own recorded metadata, but
`LanceDBManager.search` embeds the query with the identity fixed by its own
constructor and never reads the metadata.  Concretely: a knowledge base
created by a manager loaded with the local model `all-mpnet-base-v2` records
that identity, yet the generated search server (which constructs a default
`LanceDBManager()`) embeds every query with `all-MiniLM-L6-v2`. -/
theorem C1_search_identity_from_constructor_not_metadata :
    (LanceDBManager.initKbMetadata
        { use_openai_embeddings := false, local_model := "all-mpnet-base-v2" }
      ).embedding_model = "all-mpnet-base-v2" ∧
    searchQueryEmbeddingIdentity generatedServerManager "all-mpnet-base-v2"
      = "all-MiniLM-L6-v2" ∧
    searchQueryEmbeddingIdentity generatedServerManager "all-mpnet-base-v2"
      ≠ "all-mpnet-base-v2" := by
  refine ⟨rfl, rfl, ?_⟩
  decide

/-- Claim C3 (code bug): the server submits one document per non-empty page
carrying the id `<kb>_page_<i>`, the content, the title and the source URL —
but `add_documents` ignores every key except `content` and the absent
`metadata` key, so the stored row keeps only a fresh uuid, the content and
its vector: the assembled id, the title and the source URL are not
persisted. -/
theorem C3_stored_rows_drop_id_title_url :
    ∀ (uuid : Nat → String) (embed : String → List Int),
    assembleDocuments "mykb" onePage =
      [{ fields := [("id", "mykb_page_0"), ("content", "hello world"),
                    ("title", "Title A"), ("url", "https://e.com/a")] }] ∧
    add_documents_rows uuid embed (assembleDocuments "mykb" onePage) 0 =
      [{ id := uuid 0, content := "hello world",
         vector := embed "hello world", extra := [] }] := by
  intro uuid embed
  exact ⟨rfl, rfl⟩

/-- Claim C4 counterexample: removing the nonexistent knowledge base
`"nosuchkb"` from an empty registry does not return success — the handler
answers with the `"not found"` error. -/
theorem C4_counterexample_remove_nonexistent_errors :
    handle_knowledge_remove ⟨[]⟩ "nosuchkb" = (⟨[]⟩, .errorNotFound) ∧
    RemoveOutcome.errorNotFound ≠ RemoveOutcome.removed := by
  decide

/-- Claim C4 as amended: `LanceDBManager.delete_kb` is idempotent — it
returns success whether or not the path exists (and leaves the directory
list unchanged when it does not) — but the server's `knowledge_remove`
handler reports a nonexistent knowledge-base name as a `"not found"` error,
not as success. -/
theorem C4_delete_kb_idempotent_but_handler_errors :
    (∀ (dirs : List String) (p : String), (delete_kb dirs p).2 = true) ∧
    (∀ (dirs : List String) (p : String), p ∉ dirs → delete_kb dirs p = (dirs, true)) ∧
    (∀ (st : KBState) (n : String), st.dirs.all (fun d => d.1 ≠ n) →
      handle_knowledge_remove st n = (st, .errorNotFound)) := by
  refine ⟨fun dirs p => ?_, fun dirs p hp => ?_, fun st n hn => ?_⟩
  · unfold delete_kb
    split <;> rfl
  · unfold delete_kb
    rw [if_neg hp]
  · unfold handle_knowledge_remove
    rw [if_neg]
    simp only [List.all_eq_true, decide_eq_true_eq] at hn
    simp only [List.any_eq_true, decide_eq_true_eq, not_exists, not_and]
    intro d hd
    exact hn d hd

/-- Witness for C4: the amended statement applied at concrete inputs. -/
theorem C4_witness :
    (delete_kb ["a"] "b").2 = true ∧
    delete_kb ["a"] "b" = (["a"], true) ∧
    handle_knowledge_remove ⟨[("other", .absent)]⟩ "x" =
      (⟨[("other", .absent)]⟩, .errorNotFound) :=
  ⟨C4_delete_kb_idempotent_but_handler_errors.1 ["a"] "b",
   C4_delete_kb_idempotent_but_handler_errors.2.1 ["a"] "b" (by decide),
   C4_delete_kb_idempotent_but_handler_errors.2.2 ⟨[("other", .absent)]⟩ "x"
     (by decide)⟩

/-- Claim C6: `extract_sitemap_urls` has no cycle guard over visited sitemap
URLs: on a sitemap that references itself, and likewise on two sitemaps that
reference each other, the recursion exceeds every finite depth (the fuelled
embedding answers `none` for every fuel), i.e. the Python function recurses
indefinitely. -/
theorem C6_sitemap_cycle_divergence :
    (∀ fuel, extract_sitemap_urls cyclicSitemapFetch fuel
      "https://x.com/sitemap.xml" = none) ∧
    (∀ fuel, extract_sitemap_urls mutualSitemapFetch fuel
      "https://m.com/sitemap-a.xml" = none) := by
  have hcyc : ∀ fuel, extract_sitemap_urls cyclicSitemapFetch fuel
      "https://x.com/sitemap.xml" = none := by
    intro fuel
    induction fuel with
    | zero => rfl
    | succ n ih =>
      have hsm : isNestedSitemap "https://x.com/sitemap.xml" = true := by decide
      simp [extract_sitemap_urls, cyclicSitemapFetch, hsm, ih]
  have hmut : ∀ fuel,
      extract_sitemap_urls mutualSitemapFetch fuel "https://m.com/sitemap-a.xml" = none ∧
      extract_sitemap_urls mutualSitemapFetch fuel "https://m.com/sitemap-b.xml" = none := by
    intro fuel
    induction fuel with
    | zero => exact ⟨rfl, rfl⟩
    | succ n ih =>
      have ha : isNestedSitemap "https://m.com/sitemap-a.xml" = true := by decide
      have hb : isNestedSitemap "https://m.com/sitemap-b.xml" = true := by decide
      constructor
      · simp [extract_sitemap_urls, mutualSitemapFetch, ha, hb, ih.2]
      · simp [extract_sitemap_urls, mutualSitemapFetch, ha, hb, ih.1]
  exact ⟨hcyc, fun fuel => (hmut fuel).1⟩

/-- A name carried by no directory entry is not reported by
`handle_knowledge_list`. -/
theorem not_mem_list_of_fresh {st : KBState} {n : String}
    (h : ∀ d ∈ st.dirs, d.1 ≠ n) :
    n ∉ (handle_knowledge_list st).map Prod.fst := by
  simp only [handle_knowledge_list, List.map_filterMap, List.mem_filterMap]
  rintro ⟨d, hd, hmatch⟩
  have hne := h d hd
  cases hmf : d.2 with
  | absent => rw [hmf] at hmatch; simp at hmatch
  | corrupt => rw [hmf] at hmatch; simp at hmatch
  | good m => rw [hmf] at hmatch; simp at hmatch; exact hne hmatch

/-- Appending a metadata-less directory does not change the listing. -/
theorem list_append_absent (dirs : List (String × MetaFile)) (n : String) :
    handle_knowledge_list ⟨dirs ++ [(n, .absent)]⟩ = handle_knowledge_list ⟨dirs⟩ := by
  simp [handle_knowledge_list, List.filterMap_append]

/-- Pages whose content is all empty assemble into no documents. -/
theorem assembleDocuments_eq_nil {kb_name : String} {pages : List ContentPage}
    (h : ∀ p ∈ pages, p.content = "") :
    assembleDocuments kb_name pages = [] := by
  have aux : ∀ (k : Nat) (l : List ContentPage), (∀ p ∈ l, p.content = "") →
      (l.enumFrom k).filterMap (fun ip =>
        if ip.2.content ≠ "" then
          some ({ fields := [("id", kb_name ++ "_page_" ++ toString ip.1),
                             ("content", ip.2.content),
                             ("title", ip.2.title),
                             ("url", ip.2.url)] } : PyDoc)
        else none) = [] := by
    intro k l
    induction l generalizing k with
    | nil => intro _; rfl
    | cons p ps ih =>
      intro hl
      have hp : p.content = "" := hl p (by simp)
      rw [List.enumFrom_cons, List.filterMap_cons]
      simp only [hp]
      simp only [ne_eq, not_true_eq_false, if_false, ite_false]
      exact ih (k + 1) (fun q hq => hl q (by simp [hq]))
  have henum : pages.enum = pages.enumFrom 0 := rfl
  unfold assembleDocuments
  rw [henum]
  exact aux 0 pages h

/-- The final registry state of `handle_knowledge_create` is the unchanged
input state, the input state plus one metadata-less directory, or the
outcome was success. -/
theorem create_state_cases (st : KBState) (kb_name url : String)
    (max_pages : Nat) (use_openai : Bool) (embedding_model created_at : String)
    (pages : List ContentPage) (init_ok add_ok : Bool) :
    (handle_knowledge_create st kb_name url max_pages use_openai
      embedding_model created_at pages init_ok add_ok).1 = st ∨
    (handle_knowledge_create st kb_name url max_pages use_openai
      embedding_model created_at pages init_ok add_ok).1 =
        ⟨st.dirs ++ [(kb_name, .absent)]⟩ ∨
    (handle_knowledge_create st kb_name url max_pages use_openai
      embedding_model created_at pages init_ok add_ok).2.1 =
        .success (assembleDocuments kb_name pages).length := by
  unfold handle_knowledge_create
  split_ifs with h1 h2 h3 h4
  · simp
  · simp
  · simp
  · simp
  · dsimp only
    split_ifs with h5 <;> simp

/-- Claim C2: creation is all-or-nothing for the registry: when the name is
fresh and creation fails in steps 1–5 (no pages crawled, storage
initialization failed, or `add_documents` failed), the knowledge-base
metadata file is never written and a subsequent `list` does not show the
knowledge base. -/
theorem C2_create_all_or_nothing
    (st : KBState) (kb_name url : String) (max_pages : Nat)
    (use_openai : Bool) (embedding_model created_at : String)
    (pages : List ContentPage) (init_ok add_ok : Bool)
    (hfresh : ∀ d ∈ st.dirs, d.1 ≠ kb_name)
    (hfail :
      (handle_knowledge_create st kb_name url max_pages use_openai
        embedding_model created_at pages init_ok add_ok).2.1 = .noPages ∨
      (handle_knowledge_create st kb_name url max_pages use_openai
        embedding_model created_at pages init_ok add_ok).2.1 = .initFailed ∨
      (handle_knowledge_create st kb_name url max_pages use_openai
        embedding_model created_at pages init_ok add_ok).2.1 = .addFailed) :
    kb_name ∉ ((handle_knowledge_list
      (handle_knowledge_create st kb_name url max_pages use_openai
        embedding_model created_at pages init_ok add_ok).1).map Prod.fst) := by
  rcases create_state_cases st kb_name url max_pages use_openai
      embedding_model created_at pages init_ok add_ok with hst | hst | hsucc
  · rw [hst]; exact not_mem_list_of_fresh hfresh
  · rw [hst, list_append_absent]
    exact not_mem_list_of_fresh hfresh
  · rcases hfail with h | h | h <;> rw [hsucc] at h <;> exact absurd h (by simp)

/-- Witness for C2: creating `"mykb"` over an empty registry with a crawl
that produced no pages fails, and the listing afterwards does not contain
`"mykb"`. -/
theorem C2_witness :
    "mykb" ∉ ((handle_knowledge_list
      (handle_knowledge_create ⟨[]⟩ "mykb" "https://e.com" 100 false
        "all-MiniLM-L6-v2" "/cwd" [] true true).1).map Prod.fst) :=
  C2_create_all_or_nothing ⟨[]⟩ "mykb" "https://e.com" 100 false
    "all-MiniLM-L6-v2" "/cwd" [] true true (by decide) (Or.inl (by decide))

/-- Claim C10: when the crawl returns at least one page but every page's
content is empty, creation still succeeds with a document count of 0: the
document list is empty, `add_documents` is never called, and the committed
metadata records `documents = 0` — so the listing shows a knowledge base
that contains no documents table. -/
theorem C10_empty_content_pages_success_zero_docs
    (st : KBState) (kb_name url : String) (max_pages : Nat)
    (use_openai : Bool) (embedding_model created_at : String)
    (pages : List ContentPage) (add_ok : Bool)
    (hvalid : isValidKBName kb_name = true)
    (hfresh : ∀ d ∈ st.dirs, d.1 ≠ kb_name)
    (hne : pages ≠ [])
    (hempty : ∀ p ∈ pages, p.content = "") :
    (handle_knowledge_create st kb_name url max_pages use_openai
      embedding_model created_at pages true add_ok).2.1 = .success 0 ∧
    (handle_knowledge_create st kb_name url max_pages use_openai
      embedding_model created_at pages true add_ok).2.2 = false ∧
    (kb_name,
      ({ created_at := created_at
         embedding_model := embedding_model
         use_openai_embeddings := use_openai
         version := "2.0"
         documents := 0
         source_url := url
         max_pages := max_pages } : KBMetadata)) ∈
      handle_knowledge_list (handle_knowledge_create st kb_name url max_pages
        use_openai embedding_model created_at pages true add_ok).1 := by
  have hdocs : assembleDocuments kb_name pages = [] := assembleDocuments_eq_nil hempty
  have hv : ¬ (isValidKBName kb_name = false) := by simp [hvalid]
  have h2 : kb_name ∉ st.dirs.map Prod.fst := by
    intro hmem
    rcases List.mem_map.mp hmem with ⟨d, hd, hfst⟩
    exact hfresh d hd hfst
  unfold handle_knowledge_create
  rw [if_neg hv, if_neg h2, if_neg hne]
  dsimp only
  rw [if_neg (by simp), if_neg (by simp [hdocs])]
  refine ⟨by simp [hdocs], by simp [hdocs], ?_⟩
  simp only [handle_knowledge_list, List.map_append, List.filterMap_append]
  refine List.mem_append_right _ ?_
  simp [hdocs]

/-- Witness for C10: one crawled page with empty content, empty registry:
creation succeeds with zero documents, skips `add_documents`, and the
knowledge base is listed with `documents = 0`. -/
theorem C10_witness :
    (handle_knowledge_create ⟨[]⟩ "mykb" "https://e.com" 100 false
      "all-MiniLM-L6-v2" "/cwd" [⟨"https://e.com/a", "Title A", ""⟩]
      true true).2.1 = .success 0 ∧
    (handle_knowledge_create ⟨[]⟩ "mykb" "https://e.com" 100 false
      "all-MiniLM-L6-v2" "/cwd" [⟨"https://e.com/a", "Title A", ""⟩]
      true true).2.2 = false ∧
    ("mykb",
      ({ created_at := "/cwd"
         embedding_model := "all-MiniLM-L6-v2"
         use_openai_embeddings := false
         version := "2.0"
         documents := 0
         source_url := "https://e.com"
         max_pages := 100 } : KBMetadata)) ∈
      handle_knowledge_list (handle_knowledge_create ⟨[]⟩ "mykb"
        "https://e.com" 100 false "all-MiniLM-L6-v2" "/cwd"
        [⟨"https://e.com/a", "Title A", ""⟩] true true).1 :=
  C10_empty_content_pages_success_zero_docs ⟨[]⟩ "mykb" "https://e.com" 100
    false "all-MiniLM-L6-v2" "/cwd" [⟨"https://e.com/a", "Title A", ""⟩] true
    (by decide) (by decide) (by decide) (by decide)

/-- The batches of `chunksTen` partition the input in order. -/
theorem chunksTen_flatten : ∀ l : List String, (chunksTen l).flatten = l := by
  intro l
  induction l using chunksTen.induct with
  | case1 => rw [chunksTen]; rfl
  | case2 x xs ih =>
    rw [chunksTen, List.flatten_cons, ih, List.take_append_drop]

/-- Folding an append-accumulator is flattening the mapped list. -/
theorem foldl_append_eq_flatten_map {α β : Type} (g : β → List α) :
    ∀ (l : List β) (a : List α),
      l.foldl (fun acc b => acc ++ g b) a = a ++ (l.map g).flatten := by
  intro l
  induction l with
  | nil => simp
  | cons b bs ih =>
    intro a
    rw [List.foldl_cons, ih, List.map_cons, List.flatten_cons, List.append_assoc]

/-- `filterMap` distributes over flattening. -/
theorem flatten_map_filterMap {α β : Type} (p : α → Option β) :
    ∀ ll : List (List α), (ll.map (List.filterMap p)).flatten = ll.flatten.filterMap p := by
  intro ll
  induction ll with
  | nil => rfl
  | cons l ls ih =>
    rw [List.map_cons, List.flatten_cons, List.flatten_cons,
      List.filterMap_append, ih]

/-- Batch processing is pointwise: `crawl_urls` equals a per-URL
`filterMap` over the whole input. -/
theorem crawl_urls_eq_filterMap (fetch : Fetch) (urls : List String) :
    crawl_urls fetch urls = urls.filterMap (batchPageOf fetch) := by
  unfold crawl_urls processBatch
  rw [foldl_append_eq_flatten_map, List.nil_append, flatten_map_filterMap,
    chunksTen_flatten]

/-- A page contributed by a URL carries that URL. -/
theorem batchPageOf_url {fetch : Fetch} {v : String} {p : CrawledPage}
    (h : batchPageOf fetch v = some p) : p.url = v := by
  unfold batchPageOf at h
  split at h
  · exact absurd h (by simp)
  · split at h
    · cases h
      rfl
    · exact absurd h (by simp)

/-- Claim C8: batch fetching processes the URL list in fixed-size batches of
10 sequentially (conjunct 1), which together amount to one pointwise pass
over the input (conjunct 2); exceptions are isolated per URL: changing the
fetch behaviour of a single URL `u` — for example making it raise — leaves
the pages produced for every other URL unchanged (conjunct 3). -/
theorem C8_batch_isolation :
    (∀ (fetch : Fetch) (urls : List String),
      crawl_urls fetch urls = ((chunksTen urls).map (processBatch fetch)).flatten) ∧
    (∀ (fetch : Fetch) (urls : List String),
      crawl_urls fetch urls = urls.filterMap (batchPageOf fetch)) ∧
    (∀ (f g : Fetch) (u : String) (urls : List String),
      (∀ v, v ≠ u → f v = g v) →
      (crawl_urls f urls).filter (fun p => p.url != u) =
        (crawl_urls g urls).filter (fun p => p.url != u)) := by
  refine ⟨?_, crawl_urls_eq_filterMap, ?_⟩
  · intro fetch urls
    unfold crawl_urls
    rw [foldl_append_eq_flatten_map, List.nil_append]
  · intro f g u urls hfg
    rw [crawl_urls_eq_filterMap, crawl_urls_eq_filterMap]
    induction urls with
    | nil => rfl
    | cons v vs ih =>
      by_cases hv : v = u
      · subst hv
        rw [List.filterMap_cons, List.filterMap_cons]
        cases hf : batchPageOf f v with
        | none =>
          cases hg : batchPageOf g v with
          | none => exact ih
          | some q =>
            have hq : q.url = v := batchPageOf_url hg
            simp only [List.filter_cons, hq]
            simpa using ih
        | some p =>
          have hp : p.url = v := batchPageOf_url hf
          cases hg : batchPageOf g v with
          | none =>
            simp only [List.filter_cons, hp]
            simpa using ih
          | some q =>
            have hq : q.url = v := batchPageOf_url hg
            simp only [List.filter_cons, hp, hq]
            simpa using ih
      · have heq : batchPageOf f v = batchPageOf g v := by
          unfold batchPageOf
          rw [hfg v hv]
        rw [List.filterMap_cons, List.filterMap_cons, heq]
        cases hg : batchPageOf g v with
        | none => exact ih
        | some q => simp only [List.filter_cons]; rw [ih]

/-- Witness for C8: a fetch oracle `f` on which `"https://e.com/boom"`
raises and an otherwise identical oracle `g` on which it succeeds produce
the same pages for all other URLs of the batch. -/
theorem C8_witness :
    (crawl_urls
        (fun v => if v = "https://e.com/boom" then .error () else
          .ok ⟨true, "md " ++ v, some v, []⟩)
        ["https://e.com/a", "https://e.com/boom", "https://e.com/b"]).filter
      (fun p => p.url != "https://e.com/boom") =
    (crawl_urls
        (fun v => if v = "https://e.com/boom" then .ok ⟨true, "boom md", some "B", []⟩ else
          .ok ⟨true, "md " ++ v, some v, []⟩)
        ["https://e.com/a", "https://e.com/boom", "https://e.com/b"]).filter
      (fun p => p.url != "https://e.com/boom") :=
  C8_batch_isolation.2.2
    (fun v => if v = "https://e.com/boom" then .error () else
      .ok ⟨true, "md " ++ v, some v, []⟩)
    (fun v => if v = "https://e.com/boom" then .ok ⟨true, "boom md", some "B", []⟩ else
      .ok ⟨true, "md " ++ v, some v, []⟩)
    "https://e.com/boom"
    ["https://e.com/a", "https://e.com/boom", "https://e.com/b"]
    (fun v hv => by simp [hv])

/-- A faithful model of the `requests` library's scheme check: `requests`
raises `MissingSchema` (a `RequestException`) on any URL that starts with
neither `http://` nor `https://`, so such a probe always lands in the
oracle's exception value. -/
def RequestsSchemeFaithful (net : Net) : Prop :=
  ∀ u : String, strStartsWith u "http://" = false →
    strStartsWith u "https://" = false → net.head u = none

/-- Any URL that `check_sitemap` returns as found answered 200 to a `head`
probe. -/
theorem check_sitemap_found_head {net : Net} {b u : String}
    (h : check_sitemap net b = (true, u)) : net.head u = some 200 := by
  unfold check_sitemap at h
  split at h
  next w hfind =>
    cases h
    obtain ⟨p, _, hfp⟩ := List.exists_of_findSome?_eq_some hfind
    dsimp only at hfp
    split at hfp
    next heq => cases hfp; exact heq
    next => exact absurd hfp (by simp)
  next hfind =>
    split at h
    next body hget =>
      split at h
      next w hline =>
        cases h
        obtain ⟨line, _, hfl⟩ := List.exists_of_findSome?_eq_some hline
        dsimp only at hfl
        split at hfl
        · split at hfl
          next heq => cases hfl; exact heq
          next => exact absurd hfl (by simp)
        · exact absurd hfl (by simp)
      next => exact absurd h (by simp)
    next => exact absurd h (by simp)

/-- A list of characters that is all slashes after a right-strip is empty
only if it contained nothing but slashes. -/
theorem rstrip_ne_empty {s : String} {c : Char} (hc : c ∈ s.data)
    (hne : c ≠ '/') : strRstripSlash s ≠ "" := by
  unfold strRstripSlash rstripSlashL
  intro hcontr
  have hdata : (s.data.reverse.dropWhile (· = '/')).reverse = [] :=
    congrArg String.data hcontr
  rw [List.reverse_eq_nil_iff] at hdata
  rw [List.dropWhile_eq_nil_iff] at hdata
  have := hdata c (List.mem_reverse.mpr hc)
  simp at this
  exact hne this

/-- A string with a cons prefix starts with that head character. -/
theorem startsWithL_head {p s : List Char} {c : Char}
    (h : startsWithL (c :: p) s = true) : ∃ t, s = c :: t := by
  unfold startsWithL at h
  cases s with
  | nil => simp [List.isPrefixOf] at h
  | cons a t =>
    simp [List.isPrefixOf] at h
    exact ⟨t, by rw [h.1]⟩

/-- The canonicalized seed is never the empty string. -/
theorem canonicalizeSeed_ne_empty (seed : String) :
    canonicalizeSeed seed ≠ "" := by
  unfold canonicalizeSeed
  by_cases hb : (strStartsWith seed "http://" || strStartsWith seed "https://") = true
  · rw [if_pos hb]
    rcases Bool.or_eq_true_iff.mp hb with h | h
    · obtain ⟨t, ht⟩ := startsWithL_head (p := "ttp://".data) h
      exact rstrip_ne_empty (ht ▸ List.mem_cons_self _ _) (by decide)
    · obtain ⟨t, ht⟩ := startsWithL_head (p := "ttps://".data) h
      exact rstrip_ne_empty (ht ▸ List.mem_cons_self _ _) (by decide)
  · rw [if_neg hb]
    refine rstrip_ne_empty (c := 'h') ?_ (by decide)
    rw [String.data_append]
    exact List.mem_append_left _ (by decide)

/-- Claim C7 counterexample: with a site whose `/sitemap.xml` probe answers
200, `detect_strategy "example.com"` returns the discovered sitemap URL
`https://example.com/sitemap.xml`, which is not the canonicalized seed —
so detection does not always return the canonical seed URL. -/
theorem C7_counterexample_sitemap_url_not_canonical_seed :
    detect_strategy sitemapNet "example.com" =
      ("sitemap", "https://example.com/sitemap.xml") ∧
    ("https://example.com/sitemap.xml" : String) ≠
      canonicalizeSeed "example.com" := by
  constructor
  · decide
  · decide

/-- Claim C7 as amended: for every seed and every `requests`-faithful
network oracle, `detect_strategy` (which is total and treats every raised
probe as not-found) returns a strategy in `{sitemap, recursive}` and a
non-empty URL; whenever the strategy is `recursive` — in particular when
every probe fails — the URL is exactly the canonicalized seed (prefixed
with `https://` when schemeless, trailing slashes stripped); in the
`sitemap` case the URL is the discovered sitemap URL instead. -/
theorem C7_detect_total_and_fallback (net : Net) (seed : String)
    (hnet : RequestsSchemeFaithful net) :
    ((detect_strategy net seed).1 = "sitemap" ∨
      (detect_strategy net seed).1 = "recursive") ∧
    (detect_strategy net seed).2 ≠ "" ∧
    ((detect_strategy net seed).1 = "recursive" →
      (detect_strategy net seed).2 = canonicalizeSeed seed) := by
  obtain ⟨⟨found, u⟩, hcs⟩ :
      ∃ fu, check_sitemap net (canonicalizeSeed seed) = fu := ⟨_, rfl⟩
  have hd : detect_strategy net seed =
      if found then ("sitemap", u) else ("recursive", canonicalizeSeed seed) := by
    unfold detect_strategy
    dsimp only
    rw [hcs]
    cases found <;> rfl
  cases found
  · rw [if_neg (by simp)] at hd
    rw [hd]
    exact ⟨Or.inr rfl, canonicalizeSeed_ne_empty seed, fun _ => rfl⟩
  · rw [if_pos rfl] at hd
    rw [hd]
    refine ⟨Or.inl rfl, ?_,
      fun habs => ((by decide : ¬("sitemap" : String) = "recursive") habs).elim⟩
    intro hu
    have hu' : u = "" := hu
    have h200 := check_sitemap_found_head hcs
    rw [hu'] at h200
    rw [hnet "" (by decide) (by decide)] at h200
    exact absurd h200 (by simp)

/-- Witness for C7: with the all-raising oracle, detection on
`"example.com"` falls through to `("recursive", "https://example.com")`. -/
theorem C7_witness :
    ((detect_strategy failingNet "example.com").1 = "sitemap" ∨
      (detect_strategy failingNet "example.com").1 = "recursive") ∧
    (detect_strategy failingNet "example.com").2 ≠ "" ∧
    ((detect_strategy failingNet "example.com").1 = "recursive" →
      (detect_strategy failingNet "example.com").2 =
        canonicalizeSeed "example.com") :=
  C7_detect_total_and_fallback failingNet "example.com"
    (fun _ _ _ => rfl)

/-- Claim C9: the `max_depth` accepted by the `WebsiteCrawler` constructor
has no effect: `WebsiteCrawler.crawl_website` never forwards
`self.max_depth`, so two crawlers differing only in depth produce identical
results (conjunct 1), and every recursive crawl runs with the module-level
default depth limit of 3 (conjunct 2). -/
theorem C9_max_depth_has_no_effect :
    (∀ (mp d1 d2 : Nat) (net : Net) (fl : String → Option (List String))
        (fetch : Fetch) (fuel : Nat) (url : String),
      WebsiteCrawler.crawl_website ⟨mp, d1⟩ net fl fetch fuel url =
        WebsiteCrawler.crawl_website ⟨mp, d2⟩ net fl fetch fuel url) ∧
    (∀ (c : WebsiteCrawler) (net : Net) (fl : String → Option (List String))
        (fetch : Fetch) (fuel : Nat) (url : String),
      (detect_strategy net url).1 ≠ "sitemap" →
      WebsiteCrawler.crawl_website c net fl fetch fuel url =
        some (List.map convertPage
          (crawl_recursive fetch (detect_strategy net url).2 c.max_pages 3))) := by
  constructor
  · intro mp d1 d2 net fl fetch fuel url
    rfl
  · intro c net fl fetch fuel url hns
    unfold WebsiteCrawler.crawl_website MCPGlobal.crawl_website
    dsimp only
    rw [if_neg hns]
    rfl

/-- Witness for C9: a crawler built with `max_depth = 7` still performs the
recursive crawl with the default depth 3. -/
theorem C9_witness :
    WebsiteCrawler.crawl_website ⟨5, 7⟩ failingNet (fun _ => some [])
      (fun _ => Except.error ()) 0 "example.com" =
    some (List.map convertPage
      (crawl_recursive (fun _ => Except.error ())
        (detect_strategy failingNet "example.com").2 5 3)) :=
  C9_max_depth_has_no_effect.2 ⟨5, 7⟩ failingNet (fun _ => some [])
    (fun _ => Except.error ()) 0 "example.com" (by decide)

/-- Loop invariant of the recursive crawl: starting from any frontier, a
page list within budget whose dequeue depths are within the depth limit,
whose URLs are pairwise distinct and all already marked visited, the loop
keeps all three properties. -/
theorem crawlRecursiveAux_inv (fetch : Fetch) (bd : String) (mp md : Nat) :
    ∀ (tv : List (String × Nat)) (vis : List String)
      (pg : List (CrawledPage × Nat)),
      pg.length ≤ mp →
      (∀ x ∈ pg, x.2 ≤ md) →
      (pg.map (fun x => x.1.url)).Nodup →
      (∀ x ∈ pg, x.1.url ∈ vis) →
      ((crawlRecursiveAux fetch bd mp md tv vis pg).length ≤ mp ∧
       (∀ x ∈ crawlRecursiveAux fetch bd mp md tv vis pg, x.2 ≤ md) ∧
       ((crawlRecursiveAux fetch bd mp md tv vis pg).map
          (fun x => x.1.url)).Nodup) := by
  intro tv vis pg
  induction tv, vis, pg using crawlRecursiveAux.induct fetch bd mp md with
  | case1 vis pg =>
    intro hlen hdep hnd _
    rw [crawlRecursiveAux]
    exact ⟨hlen, hdep, hnd⟩
  | case2 vis pg url depth rest h1 h2 ih =>
    intro hlen hdep hnd hvis
    rw [crawlRecursiveAux, if_pos h1, if_pos h2]
    exact ih hlen hdep hnd hvis
  | case3 vis pg url depth rest h1 h2 a hf ih =>
    intro hlen hdep hnd hvis
    rw [crawlRecursiveAux, if_pos h1, if_neg h2, hf]
    exact ih hlen hdep hnd
      (fun x hx => List.mem_cons_of_mem _ (hvis x hx))
  | case4 vis pg url depth rest h1 h2 r hf hacc nl ih =>
    intro hlen hdep hnd hvis
    rw [crawlRecursiveAux, if_pos h1, if_neg h2, hf]
    dsimp only
    rw [if_pos hacc]
    have h2' : url ∉ vis ∧ depth ≤ md := by
      simp only [Bool.or_eq_true, decide_eq_true_eq, not_or] at h2
      exact ⟨h2.1, by omega⟩
    refine ih ?_ ?_ ?_ ?_
    · simp only [List.length_append, List.length_cons, List.length_nil]
      omega
    · intro x hx
      rcases List.mem_append.mp hx with hx | hx
      · exact hdep x hx
      · simp only [List.mem_singleton] at hx
        rw [hx]
        exact h2'.2
    · rw [List.map_append]
      rw [List.nodup_append]
      refine ⟨hnd, List.nodup_singleton _, ?_⟩
      intro a ha
      simp only [List.map_cons, List.map_nil, List.mem_singleton]
      intro hcontr
      rcases List.mem_map.mp ha with ⟨x, hx, hxa⟩
      have : a ∈ vis := hxa ▸ hvis x hx
      rw [hcontr] at this
      exact h2'.1 this
    · intro x hx
      rcases List.mem_append.mp hx with hx | hx
      · exact List.mem_cons_of_mem _ (hvis x hx)
      · simp only [List.mem_singleton] at hx
        rw [hx]
        exact List.mem_cons_self _ _
  | case5 vis pg url depth rest h1 h2 r hf hacc ih =>
    intro hlen hdep hnd hvis
    rw [crawlRecursiveAux, if_pos h1, if_neg h2, hf]
    dsimp only
    rw [if_neg hacc]
    exact ih hlen hdep hnd
      (fun x hx => List.mem_cons_of_mem _ (hvis x hx))
  | case6 vis pg url depth rest h1 =>
    intro hlen hdep hnd _
    rw [crawlRecursiveAux, if_neg h1]
    exact ⟨hlen, hdep, hnd⟩

/-- Claim C5: for positive budgets, the recursive crawl returns at most
`N` pages, every accepted page was dequeued at depth at most `D` (the ghost
depths of the loop embedding), and no URL appears twice in the result. -/
theorem C5_recursive_crawl_budgets_and_dedup (fetch : Fetch) (seed : String)
    (N D : Nat) (_hN : 0 < N) (_hD : 0 < D) :
    (crawl_recursive fetch seed N D).length ≤ N ∧
    (∀ x ∈ crawlRecursiveAux fetch (get_base_domain seed) N D
        [(seed, 0)] [] [], x.2 ≤ D) ∧
    ((crawl_recursive fetch seed N D).map CrawledPage.url).Nodup := by
  have h := crawlRecursiveAux_inv fetch (get_base_domain seed) N D
    [(seed, 0)] [] [] (by simp) (by simp) (by simp) (by simp)
  unfold crawl_recursive
  refine ⟨?_, h.2.1, ?_⟩
  · rw [List.length_map]
    exact h.1
  · rw [List.map_map]
    exact h.2.2

/-- Witness for C5: the crawl of the three-page example site with
`max_pages = 3`, `max_depth = 2`. -/
theorem C5_witness :
    (crawl_recursive exCrawlFetch "https://a.com" 3 2).length ≤ 3 ∧
    (∀ x ∈ crawlRecursiveAux exCrawlFetch (get_base_domain "https://a.com")
        3 2 [("https://a.com", 0)] [] [], x.2 ≤ 2) ∧
    ((crawl_recursive exCrawlFetch "https://a.com" 3 2).map
      CrawledPage.url).Nodup :=
  C5_recursive_crawl_budgets_and_dedup exCrawlFetch "https://a.com" 3 2
    (by decide) (by decide)

end MCPGlobal
